import Mathlib

/-!
Verification of `src/sasctl/pzmm/model_parameters.py`.

The module is a thin client over a remote model-management service: it
locates a model's hyperparameter JSON file by filename fragment, merges KPI
rows into it, re-uploads it, and reconstructs the project KPI table from a
row/column REST API.  The definitions below are a shallow embedding of that
file: Python dicts become ordered association lists, pandas `DataFrame` rows
become ordered `(column, cell)` lists, remote collaborators (`mr.get_model`,
`mr.get_project`, `sess.get`, `mr.get_model_contents`, `mr.get`) become
explicit function parameters keyed by the URL the source builds, and raised
exceptions become `Except.error`.
-/

namespace SasctlParams

/-- JSON values as they occur in a hyperparameter document. -/
inductive JVal where
  | nul : JVal
  | str : String → JVal
  | num : Int → JVal
  | obj : List (String × JVal) → JVal
deriving Repr

/-- Python `d[k]` lookup on a dict modelled as an ordered association list:
the first binding of `k` (a Python dict has each key at most once). -/
def dictGet {α : Type} : List (String × α) → String → Option α
  | [], _ => none
  | p :: t, k => if p.1 = k then some p.2 else dictGet t k

/-- Python `d[k] = v`: replaces the value at an existing key in place and
otherwise appends the new binding at the end (Python dicts keep insertion
order). -/
def dictSet {α : Type} (d : List (String × α)) (k : String) (v : α) :
    List (String × α) :=
  if (dictGet d k).isSome then
    d.map (fun p => if p.1 = k then (p.1, v) else p)
  else d ++ [(k, v)]

/-- A cell of the KPI `DataFrame`; `none` models a pandas missing value. -/
abbrev Cell := Option String

/-- One `DataFrame` row with named columns, in column order. -/
abbrev Row := List (String × Cell)

/-- A hyperparameter document (a parsed JSON object). -/
abbrev Doc := List (String × JVal)

/-- A cell as it is serialized by `DataFrame.to_json`. -/
def cellJ : Cell → JVal
  | none => JVal.nul
  | some s => JVal.str s

/-- `kpis.loc[kpis["ModelUUID"] == model]` (line 65): the rows whose
`ModelUUID` cell equals `model`; a missing or null cell compares unequal,
as in pandas. -/
def matchingRows (model : String) (kpis : List Row) : List Row :=
  kpis.filter (fun r =>
    match dictGet r "ModelUUID" with
    | some (some s) => s == model
    | _ => false)

/-- One entry of `model_rows.drop(columns=["ModelUUID"]).set_index(
"TimeLabel").to_json(orient="index")` (lines 67-70): the row keyed by its
`TimeLabel` cell, the inner object holding every remaining column except
`ModelUUID` (dropped) and `TimeLabel` (now the index), in column order. -/
def rowEntry (r : Row) : String × JVal :=
  (match dictGet r "TimeLabel" with
   | some (some t) => t
   | _ => "",
   JVal.obj (((r.filter (fun p => p.1 != "ModelUUID")).filter
      (fun p => p.1 != "TimeLabel")).map (fun p => (p.1, cellJ p.2))))

/-- The parsed `kpi_json` object: one entry per matched row. -/
def kpiMapOf (rows : List Row) : List (String × JVal) := rows.map rowEntry

/-- Whether a row has a non-null `TimeLabel` cell. -/
def hasTimeLabel (r : Row) : Bool :=
  match dictGet r "TimeLabel" with
  | some (some _) => true
  | _ => false

/-- Whether the key list of an association list is duplicate-free. -/
def keysNodup : List (String × JVal) → Bool
  | [] => true
  | e :: t => t.all (fun e2 => e2.1 != e.1) && keysNodup t

/-- `ModelParameters._update_json` (lines 45-72).  `Except.error` models the
pandas exceptions of the non-empty branch: `set_index("TimeLabel")` when a
matched row has no (non-null) `TimeLabel`, and `to_json(orient="index")`
when the resulting index is not unique. -/
def update_json (model : String) (model_json : Doc) (kpis : List Row) :
    Except String Doc :=
  let model_rows := matchingRows model kpis
  if model_rows.isEmpty then Except.ok model_json
  else if model_rows.all hasTimeLabel then
    if keysNodup (kpiMapOf model_rows) then
      Except.ok (dictSet model_json "kpis" (JVal.obj (kpiMapOf model_rows)))
    else Except.error "ValueError: DataFrame index must be unique for orient='index'"
  else Except.error "KeyError: TimeLabel"

/-- No inner object of a merged `kpis` map carries a `ModelUUID` key. -/
def kpisOmitModelUUID (km : List (String × JVal)) : Bool :=
  km.all (fun e =>
    match e.2 with
    | JVal.obj q => q.all (fun p => p.1 != "ModelUUID")
    | _ => true)

theorem dictGet_replace_self {α : Type} (d : List (String × α)) (k : String) (v : α)
    (h : (dictGet d k).isSome = true) :
    dictGet (d.map (fun p => if p.1 = k then (p.1, v) else p)) k = some v := by
  induction d with
  | nil => simp [dictGet] at h
  | cons p t ih =>
    by_cases hp : p.1 = k
    · simp [dictGet, hp]
    · simp only [dictGet, hp, if_false] at h
      simp [dictGet, hp, ih h]

theorem dictGet_append_single {α : Type} (d : List (String × α)) (k : String) (v : α)
    (h : (dictGet d k).isSome = false) :
    dictGet (d ++ [(k, v)]) k = some v := by
  induction d with
  | nil => simp [dictGet]
  | cons p t ih =>
    by_cases hp : p.1 = k
    · simp [dictGet, hp] at h
    · simp only [dictGet, hp, if_false] at h
      simp [dictGet, hp, ih h]

theorem dictGet_dictSet_self {α : Type} (d : List (String × α)) (k : String) (v : α) :
    dictGet (dictSet d k v) k = some v := by
  unfold dictSet
  cases hany : (dictGet d k).isSome with
  | true => simpa [hany] using dictGet_replace_self d k v hany
  | false => simpa [hany] using dictGet_append_single d k v hany

theorem dictGet_replace_ne {α : Type} (d : List (String × α)) (k k' : String) (v : α)
    (h : k' ≠ k) :
    dictGet (d.map (fun p => if p.1 = k then (p.1, v) else p)) k' = dictGet d k' := by
  induction d with
  | nil => rfl
  | cons p t ih =>
    by_cases hp : p.1 = k
    · have hne : ¬k = k' := fun e => h e.symm
      simp [dictGet, hp, hne, ih]
    · simp [dictGet, hp, ih]

theorem dictGet_append_ne {α : Type} (d : List (String × α)) (k k' : String) (v : α)
    (h : k' ≠ k) : dictGet (d ++ [(k, v)]) k' = dictGet d k' := by
  induction d with
  | nil =>
    have hne : ¬k = k' := fun e => h e.symm
    simp [dictGet, hne]
  | cons p t ih => simp [dictGet, ih]

theorem dictGet_dictSet_ne {α : Type} (d : List (String × α)) (k k' : String) (v : α)
    (h : k' ≠ k) : dictGet (dictSet d k v) k' = dictGet d k' := by
  unfold dictSet
  cases hany : (dictGet d k).isSome with
  | true => simpa [hany] using dictGet_replace_ne d k k' v h
  | false => simpa [hany] using dictGet_append_ne d k k' v h

theorem matchingRows_idem (M : String) (T : List Row) :
    matchingRows M (matchingRows M T) = matchingRows M T := by
  refine List.filter_eq_self.mpr (fun a ha => ?_)
  exact (List.mem_filter.mp ha).2

theorem kpisOmitModelUUID_kpiMapOf (rows : List Row) :
    kpisOmitModelUUID (kpiMapOf rows) = true := by
  simp only [kpisOmitModelUUID, kpiMapOf, List.all_eq_true, List.mem_map,
    forall_exists_index, and_imp]
  rintro e r hr rfl
  simp only [rowEntry, List.all_eq_true, List.mem_map, forall_exists_index, and_imp]
  rintro p q hq rfl
  exact (List.mem_filter.mp (List.mem_filter.mp hq).1).2

/-- C1: merging a KPI table `T` into a document `D` for model `M` depends
only on the rows of `T` whose `ModelUUID` equals `M`; the merged `kpis` map
never carries a `ModelUUID` column, and when the merge succeeds with at
least one matching row the document's `kpis` key holds exactly the map built
from the matching rows; when no row matches, the document is returned
unchanged (a silent no-op, not an error). -/
theorem update_json_spec (M : String) (D : Doc) (T : List Row) :
    update_json M D T = update_json M D (matchingRows M T)
    ∧ kpisOmitModelUUID (kpiMapOf (matchingRows M T)) = true
    ∧ (∀ D', update_json M D T = Except.ok D' → (matchingRows M T).isEmpty = false →
        dictGet D' "kpis" = some (JVal.obj (kpiMapOf (matchingRows M T))))
    ∧ ((matchingRows M T).isEmpty = true → update_json M D T = Except.ok D) := by
  refine ⟨?_, kpisOmitModelUUID_kpiMapOf _, ?_, ?_⟩
  · unfold update_json
    rw [matchingRows_idem]
  · intro D' hok hne
    simp only [update_json] at hok
    rw [hne] at hok
    simp only [Bool.false_eq_true, if_false] at hok
    cases hall : (matchingRows M T).all hasTimeLabel with
    | false => rw [hall] at hok; simp at hok
    | true =>
      rw [hall] at hok
      cases hnd : keysNodup (kpiMapOf (matchingRows M T)) with
      | false => rw [hnd] at hok; simp at hok
      | true =>
        rw [hnd] at hok
        simp only [if_true, Except.ok.injEq] at hok
        rw [← hok]
        exact dictGet_dictSet_self D "kpis" _
  · intro he
    simp only [update_json]
    rw [he]
    simp

/-- C10: the KPI merge touches no key of the document other than `kpis` —
whenever `_update_json` returns a document, every key different from `kpis`
still maps to its original value. -/
theorem update_json_frame (M : String) (D : Doc) (T : List Row) (D' : Doc)
    (hok : update_json M D T = Except.ok D') :
    ∀ k, k ≠ "kpis" → dictGet D' k = dictGet D k := by
  intro k hk
  simp only [update_json] at hok
  cases he : (matchingRows M T).isEmpty with
  | true =>
    rw [he] at hok
    simp only [if_true, Except.ok.injEq] at hok
    rw [← hok]
  | false =>
    rw [he] at hok
    simp only [Bool.false_eq_true, if_false] at hok
    cases hall : (matchingRows M T).all hasTimeLabel with
    | false => rw [hall] at hok; simp at hok
    | true =>
      rw [hall] at hok
      cases hnd : keysNodup (kpiMapOf (matchingRows M T)) with
      | false => rw [hnd] at hok; simp at hok
      | true =>
        rw [hnd] at hok
        simp only [if_true, Except.ok.injEq] at hok
        rw [← hok]
        exact dictGet_dictSet_ne D "kpis" k (JVal.obj (kpiMapOf (matchingRows M T))) hk

/-- Witness for C10 at a concrete input: one matching KPI row, and the
`hyperparameters` key is untouched by the merge. -/
theorem update_json_frame_check :
    dictGet (dictSet ([("hyperparameters", JVal.obj [("C", JVal.str "1.0")])] : Doc) "kpis"
        (JVal.obj (kpiMapOf (matchingRows "m1"
          [[("ModelUUID", some "m1"), ("TimeLabel", some "2023-01"), ("AUC", some "0.9")]]))))
      "hyperparameters"
      = dictGet ([("hyperparameters", JVal.obj [("C", JVal.str "1.0")])] : Doc)
          "hyperparameters" :=
  update_json_frame "m1" [("hyperparameters", JVal.obj [("C", JVal.str "1.0")])]
    [[("ModelUUID", some "m1"), ("TimeLabel", some "2023-01"), ("AUC", some "0.9")]]
    (dictSet [("hyperparameters", JVal.obj [("C", JVal.str "1.0")])] "kpis"
      (JVal.obj (kpiMapOf (matchingRows "m1"
        [[("ModelUUID", some "m1"), ("TimeLabel", some "2023-01"), ("AUC", some "0.9")]]))))
    (by rfl) "hyperparameters" (by decide)

/-- Python substring test `needle in hay`, on the character lists: true when
`needle` occurs contiguously in `hay`. -/
def containsSub (needle : List Char) : List Char → Bool
  | [] => needle.isEmpty
  | c :: t => needle.isPrefixOf (c :: t) || containsSub needle t

/-- Python `needle in hay` on strings. -/
def strContains (hay needle : String) : Bool := containsSub needle.data hay.data

/-- Python `s.lower()` (ASCII case folding, character by character). -/
def lowerStr (s : String) : String := ⟨s.data.map Char.toLower⟩

theorem isPrefixOf_self_append (n b : List Char) : n.isPrefixOf (n ++ b) = true := by
  induction n with
  | nil => cases b <;> rfl
  | cons c t ih => simp [List.isPrefixOf, ih]

theorem containsSub_of_isPrefixOf (n h : List Char) (hp : n.isPrefixOf h = true) :
    containsSub n h = true := by
  cases h with
  | nil =>
    cases n with
    | nil => rfl
    | cons c t => simp [List.isPrefixOf] at hp
  | cons c t => simp [containsSub, hp]

theorem containsSub_append (a n b : List Char) :
    containsSub n (a ++ (n ++ b)) = true := by
  induction a with
  | nil =>
    simp only [List.nil_append]
    exact containsSub_of_isPrefixOf n (n ++ b) (isPrefixOf_self_append n b)
  | cons c t ih => simp [containsSub, ih]

theorem containsSub_of_middle (hay needle : List Char) (h : needle <:+: hay) :
    containsSub needle hay = true := by
  obtain ⟨s, t, rfl⟩ := h
  rw [List.append_assoc]
  exact containsSub_append s needle t

theorem strContains_of_middle (hay needle : String) (h : needle.data <:+: hay.data) :
    strContains hay needle = true :=
  containsSub_of_middle hay.data needle.data h

/-- One entry of `mr.get_model_contents(model)`: a stored file's id and name. -/
structure ModelFile where
  id : String
  name : String

/-- The loop test of `_find_file` (line 37):
`file_name.lower() in file.name.lower()`. -/
def fileMatches (file_name : String) (f : ModelFile) : Bool :=
  strContains (lowerStr f.name) (lowerStr file_name)

/-- The `ValueError` message of `_find_file` (line 40). -/
def noFileMsg (file_name : String) : String :=
  "No file containing \"" ++ file_name ++ "\" exists within model files."

/-- `_find_file` (lines 16-40): `file_list` models
`mr.get_model_contents(model)` in listing order, `get` models `mr.get(url)`
returning the raw content at the URL the source builds.  The loop returns
the first file whose name contains `file_name` case-insensitively, fetching
its content; otherwise the `ValueError` is raised. -/
def find_file (model : String) (file_name : String) (file_list : List ModelFile)
    (get : String → String) : Except String (String × String) :=
  match file_list.find? (fun f => fileMatches file_name f) with
  | some f =>
      Except.ok (get ("models/" ++ model ++ "/contents/" ++ f.id ++ "/content"),
        f.name)
  | none => Except.error (noFileMsg file_name)

/-- C3: `_find_file` returns the content and exact stored name of the first
entry of the listing whose name contains the fragment case-insensitively,
and it fails with the not-found error if and only if no entry's name
contains the fragment case-insensitively. -/
theorem find_file_spec (model F : String) (L : List ModelFile)
    (get : String → String) :
    (∀ pre f post, L = pre ++ f :: post → (∀ f' ∈ pre, fileMatches F f' = false) →
        fileMatches F f = true →
        find_file model F L get =
          Except.ok (get ("models/" ++ model ++ "/contents/" ++ f.id ++ "/content"),
            f.name))
    ∧ (find_file model F L get = Except.error (noFileMsg F) ↔
        ∀ f ∈ L, fileMatches F f = false) := by
  constructor
  · rintro pre f post rfl hpre hf
    have hfind : (pre ++ f :: post).find? (fun f => fileMatches F f) = some f := by
      induction pre with
      | nil => simpa using List.find?_cons_of_pos post hf
      | cons a t ih =>
        have ha : fileMatches F a = false := hpre a (by simp)
        rw [List.cons_append, List.find?_cons_of_neg _ (by simp [ha])]
        exact ih (fun x hx => hpre x (by simp [hx]))
    simp [find_file, hfind]
  · constructor
    · intro he f hf
      cases hfind : L.find? (fun f => fileMatches F f) with
      | some g => simp [find_file, hfind] at he
      | none => simpa using List.find?_eq_none.mp hfind f hf
    · intro hall
      have hnone : L.find? (fun f => fileMatches F f) = none :=
        List.find?_eq_none.mpr (fun x hx => by simp [hall x hx])
      simp [find_file, hnone]

/-- Counterexample for C4: with model id `"abc123"` and a fragment matching
no file, the raised message does not carry the model id. -/
theorem find_file_error_no_model_id :
    find_file "abc123" "xyz" [⟨"f1", "score.py"⟩] (fun _ => "") =
        Except.error (noFileMsg "xyz")
      ∧ strContains (noFileMsg "xyz") "abc123" = false := by
  constructor
  · rfl
  · decide

/-- C4 amended: when no stored file name contains the fragment, `_find_file`
fails with a not-found error whose message carries the fragment; the model
id is not part of the message. -/
theorem find_file_error_carries_fragment (model F : String) (L : List ModelFile)
    (get : String → String) (h : ∀ f ∈ L, fileMatches F f = false) :
    find_file model F L get = Except.error (noFileMsg F)
      ∧ strContains (noFileMsg F) F = true := by
  constructor
  · have hnone : L.find? (fun f => fileMatches F f) = none :=
      List.find?_eq_none.mpr (fun x hx => by simp [h x hx])
    simp [find_file, hnone]
  · apply strContains_of_middle
    have hdata : (noFileMsg F).data =
        ("No file containing \"").data ++ F.data
          ++ ("\" exists within model files.").data := by
      simp only [noFileMsg, String.data_append]
    rw [hdata]
    exact List.infix_append _ _ _

/-- Witness for the amended C4 at a concrete input. -/
theorem find_file_error_carries_fragment_check :
    find_file "m1" "xyz" [⟨"f1", "score.py"⟩] (fun _ => "") =
        Except.error (noFileMsg "xyz")
      ∧ strContains (noFileMsg "xyz") "xyz" = true :=
  find_file_error_carries_fragment "m1" "xyz" [⟨"f1", "score.py"⟩] (fun _ => "")
    (by decide)

/-- A Python value as passed for a `model`/`project` argument: an id or
name string, or a dict (`dict`/`RestObj`) representation. -/
inductive PyVal where
  | str : String → PyVal
  | dict : List (String × PyVal) → PyVal
deriving Repr

/-- The id-resolution step shared by `get_hyperparameters` (lines 169-175),
`add_hyperparameters` (lines 194-200) and `get_project_kpis` (lines
260-266): `is_uuid` models the format-only check `mr.is_uuid`/`is_uuid`,
`getRemote` models the remote lookup (`mr.get_model` resp. `mr.get_project`)
returning a record.  The result is the value bound to `id_` (`none` models
the `KeyError` when the looked-up record has no `id`) and the number of
remote lookups made. -/
def resolveId (is_uuid : PyVal → Bool) (getRemote : PyVal → List (String × PyVal))
    (ref : PyVal) : Option PyVal × Nat :=
  if is_uuid ref then (some ref, 0)
  else
    match ref with
    | PyVal.dict d =>
        match dictGet d "id" with
        | some v => (some v, 0)
        | none => (dictGet (getRemote ref) "id", 1)
    | PyVal.str _ => (dictGet (getRemote ref) "id", 1)

/-- C5: a ref recognized as a valid id format is used unchanged with no
remote lookup; otherwise a mapping with an `id` field yields that field with
no remote lookup; otherwise exactly one remote lookup obtains the id. -/
theorem resolveId_spec (is_uuid : PyVal → Bool)
    (getRemote : PyVal → List (String × PyVal)) (ref : PyVal) :
    (is_uuid ref = true → resolveId is_uuid getRemote ref = (some ref, 0))
    ∧ (∀ d v, is_uuid ref = false → ref = PyVal.dict d → dictGet d "id" = some v →
        resolveId is_uuid getRemote ref = (some v, 0))
    ∧ (is_uuid ref = false → (∀ d, ref = PyVal.dict d → dictGet d "id" = none) →
        resolveId is_uuid getRemote ref = (dictGet (getRemote ref) "id", 1)) := by
  refine ⟨?_, ?_, ?_⟩
  · intro h; simp [resolveId, h]
  · rintro d v h rfl hv
    simp [resolveId, h, hv]
  · intro h hnone
    cases ref with
    | str s => simp [resolveId, h]
    | dict d => simp [resolveId, h, hnone d rfl]

/-- An in-memory model object, by the capabilities that
`generate_hyperparameters` inspects: `hasattr(model, "_estimator_type")`,
`hasattr(model, "get_params")`, and what `model.get_params()` returns. -/
structure PyModelObj where
  has_estimator_type : Bool
  has_get_params : Bool
  get_params : List (String × JVal)

/-- A local JSON file write performed by `generate_hyperparameters`: the
target path, the document given to `json.dumps`, and its `indent` argument. -/
structure FileWrite where
  path : String
  content : Doc
  indent : Nat

/-- The `ValueError` message of `generate_hyperparameters` (lines 111-114). -/
def unsupportedMsg : String :=
  "This model type is not currently supported for hyperparameter generation."

/-- `ModelParameters.generate_hyperparameters` (lines 74-114): checks the
scikit-learn capability pair with `hasattr` and either writes
`{"hyperparameters": model.get_params()}` to
`<pickle_path>/<model_prefix>Hyperparameters.json` with `indent=4`, or
raises the `ValueError` without extracting anything. -/
def generate_hyperparameters (model : PyModelObj) ( model_prefix : String)
    (pickle_path : String) : Except String FileWrite :=
  if model.has_estimator_type && model.has_get_params then
    Except.ok
      { path := pickle_path ++ "/" ++ model_prefix ++ "Hyperparameters.json"
        content := [("hyperparameters", JVal.obj model.get_params)]
        indent := 4 }
  else Except.error unsupportedMsg

/-- C9: `generate_hyperparameters` succeeds exactly when the model object
has both the type-classification attribute and the parameter-extraction
method; on success it writes the wrapped parameter mapping to
`<output_dir>/<prefix>Hyperparameters.json` with 4-space indentation, and
otherwise it fails with the unsupported-model-type error, writing nothing. -/
theorem generate_hyperparameters_spec (m : PyModelObj) (pfx dir : String) :
    ((m.has_estimator_type && m.has_get_params) = true →
        generate_hyperparameters m pfx dir =
          Except.ok ⟨dir ++ "/" ++ pfx ++ "Hyperparameters.json",
            [("hyperparameters", JVal.obj m.get_params)], 4⟩)
    ∧ ((m.has_estimator_type && m.has_get_params) = false →
        generate_hyperparameters m pfx dir = Except.error unsupportedMsg) := by
  constructor <;> intro h <;> simp [generate_hyperparameters, h]

/-- A repository content upload (`mr.add_model_content`): the document given
to `json.dumps`, the `indent` argument, and the target file name. -/
structure Upload where
  content : Doc
  indent : Nat
  file_name : String

/-- `ModelParameters.add_hyperparameters` after its id resolution and fetch
(lines 201-208): takes the fetched document and file name (the result of
`get_hyperparameters`) and the keyword pairs in order; each pair is assigned
under the document's `"hyperparameters"` dict, and the whole document is
re-serialized (`json.dumps(..., indent=4)`) and uploaded under the fetched
file name.  `Except.error` models the `KeyError`/`TypeError` when the
document has no `"hyperparameters"` dict. -/
def add_hyperparameters (doc : Doc) (file_name : String)
    (pairs : List (String × JVal)) : Except String Upload :=
  match dictGet doc "hyperparameters" with
  | some (JVal.obj m) =>
      Except.ok
        { content := dictSet doc "hyperparameters"
            (JVal.obj (pairs.foldl (fun acc p => dictSet acc p.1 p.2) m))
          indent := 4
          file_name := file_name }
  | _ => Except.error "KeyError: hyperparameters"

/-- The value the keyword pairs assign to key `k`, the last assignment
winning. -/
def lastVal (pairs : List (String × JVal)) (k : String) : Option JVal :=
  pairs.foldl (fun acc p => if p.1 = k then some p.2 else acc) none

theorem foldl_lastVal_acc (pairs : List (String × JVal)) (k : String) :
    ∀ acc, pairs.foldl (fun a p => if p.1 = k then some p.2 else a) acc =
      match lastVal pairs k with
      | some v => some v
      | none => acc := by
  induction pairs with
  | nil => intro acc; simp [lastVal]
  | cons p t ih =>
    intro acc
    simp only [List.foldl_cons, lastVal]
    by_cases hp : p.1 = k
    · simp only [if_pos hp]
      simp only [ih]
      cases hl : lastVal t k <;> simp [hl]
    · simp only [if_neg hp]
      simp only [ih]
      cases hl : lastVal t k <;> simp [hl]

theorem dictGet_foldl_dictSet (pairs : List (String × JVal))
    (m : List (String × JVal)) (k : String) :
    dictGet (pairs.foldl (fun acc p => dictSet acc p.1 p.2) m) k =
      match lastVal pairs k with
      | some v => some v
      | none => dictGet m k := by
  induction pairs generalizing m with
  | nil => simp [lastVal]
  | cons p t ih =>
    simp only [List.foldl_cons]
    rw [ih (dictSet m p.1 p.2)]
    by_cases hp : p.1 = k
    · subst hp
      rw [dictGet_dictSet_self]
      have hl : lastVal (p :: t) p.1 =
          match lastVal t p.1 with
          | some v => some v
          | none => some p.2 := by
        simp only [lastVal, List.foldl_cons, if_pos rfl]
        exact foldl_lastVal_acc t p.1 (some p.2)
      rw [hl]
      cases lastVal t p.1 <;> simp
    · rw [dictGet_dictSet_ne m p.1 k p.2 (fun e => hp e.symm)]
      have hl : lastVal (p :: t) k = lastVal t k := by
        simp only [lastVal, List.foldl_cons, if_neg hp]
      rw [hl]

/-- C6: `add_hyperparameters` upserts each provided pair under the fetched
document's `hyperparameters` map — a provided key gets its (last) provided
value, silently overwriting any existing key, and every other key keeps its
original value — then serializes the whole document with `indent=4` and
uploads it under the very file name it was fetched from. -/
theorem add_hyperparameters_spec (doc : Doc) (fn : String)
    (pairs : List (String × JVal)) (m : List (String × JVal))
    (h : dictGet doc "hyperparameters" = some (JVal.obj m)) :
    ∃ m2,
      add_hyperparameters doc fn pairs =
        Except.ok { content := dictSet doc "hyperparameters" (JVal.obj m2),
                    indent := 4, file_name := fn }
      ∧ ∀ k, dictGet m2 k =
          match lastVal pairs k with
          | some v => some v
          | none => dictGet m k := by
  refine ⟨pairs.foldl (fun acc p => dictSet acc p.1 p.2) m, ?_, ?_⟩
  · simp [add_hyperparameters, h]
  · intro k; exact dictGet_foldl_dictSet pairs m k

/-- Witness for C6: adding `{"max_depth": 5}` to a document whose
`hyperparameters` are `{"C": "1.0"}` keeps `C`, adds `max_depth`, and
uploads with `indent=4` under the original file name. -/
theorem add_hyperparameters_check :
    ∃ m2,
      add_hyperparameters [("hyperparameters", JVal.obj [("C", JVal.str "1.0")])]
          "ModelHyperparameters.json" [("max_depth", JVal.num 5)] =
        Except.ok { content := dictSet
                      [("hyperparameters", JVal.obj [("C", JVal.str "1.0")])]
                      "hyperparameters" (JVal.obj m2),
                    indent := 4, file_name := "ModelHyperparameters.json" }
      ∧ ∀ k, dictGet m2 k =
          match lastVal [("max_depth", JVal.num 5)] k with
          | some v => some v
          | none => dictGet [("C", JVal.str "1.0")] k :=
  add_hyperparameters_spec [("hyperparameters", JVal.obj [("C", JVal.str "1.0")])]
    "ModelHyperparameters.json" [("max_depth", JVal.num 5)] [("C", JVal.str "1.0")]
    (by rfl)

/-- A project record returned by `mr.get_project`: a `RestObj` carrying at
least `id` and `name` (attribute access `project.name`, item access
`project["id"]`/`project["name"]`). -/
structure ProjRecord where
  id : String
  name : String

/-- The dict view of a `ProjRecord` (a `RestObj` is dict-shaped). -/
def ProjRecord.toVal (r : ProjRecord) : PyVal :=
  PyVal.dict [("id", PyVal.str r.id), ("name", PyVal.str r.name)]

/-- Remote collaborators of `get_project_kpis`: the `is_uuid` format check,
`mr.get_project`, and the two authenticated GETs keyed by the URL the source
builds.  `getColumns` yields the column names parsed from the columns
response (`none` models an empty/falsy response, line 275); `getRows` yields
the rows' `cells` arrays (`none` models a response without the
`"items"`/`"cells"` shape — the `KeyError` branch of lines 301-314). -/
structure KpiEnv where
  is_uuid : PyVal → Bool
  getProject : PyVal → ProjRecord
  getColumns : String → Option (List String)
  getRows : String → Option (List (List String))

/-- String interpolation of an id value into a URL; at this boundary an id
is always a string. -/
def pyIdStr : PyVal → String
  | PyVal.str s => s
  | PyVal.dict _ => ""

/-- Lines 260-266 of `get_project_kpis`: step through options to determine
the project UUID.  Returns the (possibly reassigned) `project` variable, the
`project_id`, and the number of `mr.get_project` calls made. -/
def resolveProjectId (env : KpiEnv) (project : PyVal) : PyVal × String × Nat :=
  if env.is_uuid project then (project, pyIdStr project, 0)
  else
    match project with
    | PyVal.dict d =>
        match dictGet d "id" with
        | some v => (project, pyIdStr v, 0)
        | none => ((env.getProject project).toVal, (env.getProject project).id, 1)
    | PyVal.str _ => ((env.getProject project).toVal, (env.getProject project).id, 1)

/-- Python truthiness of an optional string: `None` and `""` are falsy. -/
def truthy : Option String → Bool
  | none => false
  | some s => s != ""

/-- The casManagement columns URL of lines 270-274. -/
def columnsUrl (server caslib project_id : String) : String :=
  "casManagement/servers/" ++ server ++ "/caslibs/" ++ caslib ++ "/tables/"
    ++ project_id ++ ".MM_STD_KPI/columns?limit=10000"

/-- The optional `where` clause of lines 288-290. -/
def whereStatement (filter_column filter_value : Option String) : String :=
  if truthy filter_column && truthy filter_value then
    "&where=" ++ filter_column.getD "" ++ "='" ++ filter_value.getD "" ++ "'"
  else ""

/-- The casRowSets rows URL of lines 294-299. -/
def rowsUrl (server caslib project_id : String)
    (filter_column filter_value : Option String) : String :=
  "casRowSets/servers/" ++ server ++ "/caslibs/" ++ caslib ++ "/tables/"
    ++ project_id ++ ".MM_STD_KPI/rows?limit=10000"
    ++ whereStatement filter_column filter_value

/-- The `SystemError` message of the empty-schema branch (lines 277-281). -/
def noKpiTableMsg (project_name : String) : String :=
  ("No KPI table exists for project " ++ project_name ++ ".")
    ++ " Please confirm that the performance definition completed"
    ++ " or custom KPIs have been uploaded successfully."

/-- The `SystemError` message of the filtered `KeyError` branch (lines
308-311): the source string literal has no `f` prefix, so the braces and
the names `filter_column`/`filter_value` are literal text, never
interpolated. -/
def filteredNoKpisMsg : String :=
  "No KPIs were found when filtering with \x7bfilter_column\x7d='\x7bfilter_value\x7d'."

/-- The `SystemError` message of the unfiltered `KeyError` branch (line 314). -/
def noKpisForProjectMsg (project_name : String) : String :=
  "No KPIs were found for project " ++ project_name ++ "."

/-- `x.str.strip()` on one cell (line 317): drop leading and trailing
whitespace. -/
def stripCell (s : String) : String :=
  ⟨((s.data.dropWhile Char.isWhitespace).reverse.dropWhile Char.isWhitespace).reverse⟩

/-- `.replace({".": None, "": None})` on one cell (lines 317-319). -/
def replaceSentinels (s : String) : Option String :=
  if s = "." ∨ s = "" then none else some s

/-- The per-cell post-processing of lines 317-319: strip first, then map the
sentinels to a missing value. -/
def postProcessCell (s : String) : Option String := replaceSentinels (stripCell s)

/-- Outcome of `get_project_kpis`: the reconstructed table (column names and
post-processed rows) or the raised `SystemError`, plus the number of
`mr.get_project` calls made along the way. -/
structure KpisResult where
  result : Except String (List String × List (List (Option String)))
  projectCalls : Nat

/-- `ModelParameters.get_project_kpis` (lines 210-321): resolve the project
id, fetch the column schema, fetch the (optionally filtered) rows, and
rebuild the table with the post-processed cells, raising the three
`SystemError`s of the source where the responses lack the needed shape. -/
def get_project_kpis (env : KpiEnv) (project : PyVal) (server caslib : String)
    (filter_column filter_value : Option String) : KpisResult :=
  let r := resolveProjectId env project
  match env.getColumns (columnsUrl server caslib r.2.1) with
  | none =>
      { result := Except.error (noKpiTableMsg (env.getProject r.1).name)
        projectCalls := r.2.2 + 1 }
  | some col_names =>
      match env.getRows (rowsUrl server caslib r.2.1 filter_column filter_value) with
      | none =>
          if truthy filter_column && truthy filter_value then
            { result := Except.error filteredNoKpisMsg
              projectCalls := r.2.2 }
          else
            { result := Except.error (noKpisForProjectMsg (env.getProject r.1).name)
              projectCalls := r.2.2 + 1 }
      | some cellRows =>
          { result := Except.ok (col_names,
              cellRows.map (fun row => row.map postProcessCell))
            projectCalls := r.2.2 }

theorem noKpiTableMsg_has_header (name : String) :
    strContains (noKpiTableMsg name) "No KPI table exists for project" = true := by
  apply strContains_of_middle
  have h1 : ("No KPI table exists for project").data
      <+: ("No KPI table exists for project ").data := ⟨[' '], by decide⟩
  have h2 : ("No KPI table exists for project ").data
      <+: (noKpiTableMsg name).data := by
    simp only [noKpiTableMsg, String.data_append, List.append_assoc]
    exact ⟨_, rfl⟩
  obtain ⟨t, ht⟩ := h1.trans h2
  exact ⟨[], t, by simpa using ht⟩

theorem noKpiTableMsg_has_name (name : String) :
    strContains (noKpiTableMsg name) name = true := by
  apply strContains_of_middle
  exact ⟨("No KPI table exists for project ").data,
    ("." ++ " Please confirm that the performance definition completed"
      ++ " or custom KPIs have been uploaded successfully.").data,
    by simp only [noKpiTableMsg, String.data_append, List.append_assoc]⟩

/-- C8: when the column-schema response for `<project_id>.MM_STD_KPI` is
empty, `get_project_kpis` fails with a message containing
`"No KPI table exists for project"` together with the project's display
name, obtained by one extra `mr.get_project` lookup. -/
theorem get_project_kpis_no_table (env : KpiEnv) (project : PyVal)
    (server caslib : String) (fc fv : Option String)
    (h : env.getColumns (columnsUrl server caslib
        (resolveProjectId env project).2.1) = none) :
    (get_project_kpis env project server caslib fc fv).result =
        Except.error (noKpiTableMsg
          (env.getProject (resolveProjectId env project).1).name)
      ∧ strContains (noKpiTableMsg
          (env.getProject (resolveProjectId env project).1).name)
          "No KPI table exists for project" = true
      ∧ strContains (noKpiTableMsg
          (env.getProject (resolveProjectId env project).1).name)
          (env.getProject (resolveProjectId env project).1).name = true
      ∧ (get_project_kpis env project server caslib fc fv).projectCalls =
          (resolveProjectId env project).2.2 + 1 := by
  refine ⟨?_, noKpiTableMsg_has_header _, noKpiTableMsg_has_name _, ?_⟩
  · simp only [get_project_kpis, h]
  · simp only [get_project_kpis, h]

/-- Environment for the C8 witness: the ref is id-shaped, and the schema
response is empty. -/
def envNoTable : KpiEnv :=
  { is_uuid := fun _ => true
    getProject := fun _ => ⟨"p1", "Sales Forecast"⟩
    getColumns := fun _ => none
    getRows := fun _ => none }

/-- Witness for C8 at a concrete input. -/
theorem get_project_kpis_no_table_check :
    (get_project_kpis envNoTable (PyVal.str "p1") "cas-shared-default"
        "ModelPerformanceData" none none).result =
        Except.error (noKpiTableMsg (envNoTable.getProject
          (resolveProjectId envNoTable (PyVal.str "p1")).1).name)
      ∧ strContains (noKpiTableMsg (envNoTable.getProject
          (resolveProjectId envNoTable (PyVal.str "p1")).1).name)
          "No KPI table exists for project" = true
      ∧ strContains (noKpiTableMsg (envNoTable.getProject
          (resolveProjectId envNoTable (PyVal.str "p1")).1).name)
          (envNoTable.getProject
            (resolveProjectId envNoTable (PyVal.str "p1")).1).name = true
      ∧ (get_project_kpis envNoTable (PyVal.str "p1") "cas-shared-default"
          "ModelPerformanceData" none none).projectCalls =
          (resolveProjectId envNoTable (PyVal.str "p1")).2.2 + 1 :=
  get_project_kpis_no_table envNoTable (PyVal.str "p1") "cas-shared-default"
    "ModelPerformanceData" none none rfl

/-- Environment for the C2 evaluation: schema present, rows response
without the `"items"` shape. -/
def envNoRows : KpiEnv :=
  { is_uuid := fun _ => true
    getProject := fun _ => ⟨"p1", "Sales Forecast"⟩
    getColumns := fun _ => some ["ModelUUID", "TimeLabel", "AUC", "Region"]
    getRows := fun _ => none }

/-- C2, evaluated at the failing input: filtering with `Region`/`US` and a
rows response with no rows raises the literal un-interpolated message, which
contains neither `"Region"` nor `"US"` (the source string lacks the `f`
prefix). -/
theorem filtered_no_rows_literal_message :
    (get_project_kpis envNoRows (PyVal.str "p1") "cas-shared-default"
        "ModelPerformanceData" (some "Region") (some "US")).result =
        Except.error filteredNoKpisMsg
      ∧ strContains filteredNoKpisMsg "Region" = false
      ∧ strContains filteredNoKpisMsg "US" = false := by
  refine ⟨rfl, by decide, by decide⟩

/-- C7: every cell of a fetched table is first stripped of leading and
trailing whitespace and then the sentinels `"."` and `""` are replaced by a
missing value; in particular `"."`, `""`, `" 7 "`, `"abc"` map to `none`,
`none`, `"7"`, `"abc"`, and the treatment is uniform across all cells of
the reconstructed table. -/
theorem postprocess_spec :
    (∀ s : String, postProcessCell s = replaceSentinels (stripCell s))
    ∧ postProcessCell "." = none
    ∧ postProcessCell "" = none
    ∧ postProcessCell " 7 " = some "7"
    ∧ postProcessCell "abc" = some "abc"
    ∧ postProcessCell " . " = none
    ∧ (∀ env project server caslib fc fv cols rows,
        env.getColumns (columnsUrl server caslib (resolveProjectId env project).2.1)
            = some cols →
        env.getRows (rowsUrl server caslib (resolveProjectId env project).2.1 fc fv)
            = some rows →
        (get_project_kpis env project server caslib fc fv).result =
          Except.ok (cols, rows.map (fun row => row.map postProcessCell))) := by
  refine ⟨fun s => rfl, by decide, by decide, by decide, by decide, by decide, ?_⟩
  intro env project server caslib fc fv cols rows hc hr
  simp only [get_project_kpis, hc, hr]

end SasctlParams
